import Mathlib

/-!
Verification of the BED interval-tool repository: a shallow embedding of the
loader (src/preview.py), sort engine (src/sort.py), merge engine
(src/mergeBed.py), intersection engine (src/intersectBed.py) and quality
scanner (src/app.py), with theorems settling the frozen claims about them.

Conventions of the embedding:
* A loaded table is a `List BedRow`; a cell that pandas holds as NaN (a
  missing value, or a value `pd.to_numeric(..., errors="coerce")` turned into
  NaN) is `none`.  The source's `end` column is the field `stop` (`end` is a
  reserved word).
* Numeric coercion is modelled on integer literals (BED coordinates are
  integers); chromosome names are compared through their character lists
  because the engines only ever compare them lexically.
* pandas `sort_values` on several columns is a stable lexicographic sort; it
  is embedded as `List.insertionSort`, which is stable for the same key.
* `intersect_bedtools_advanced` iterates the common chromosomes in Python
  `set` order, which is unspecified; the embedding fixes the order of first
  appearance in table A.  No claim depends on the cross-chromosome row order.
* `merge_bed_files` consumes and produces a `Frame` whose `cols` flag records
  whether the DataFrame still carries its columns: merge's empty result is
  `pd.DataFrame([])`, a frame with no columns, and a further merge of it
  raises an uncaught `KeyError: 'start'` at line 13 — modelled as `none`.
-/

/-- One table cell: a string, an integer (a coerced coordinate), or a missing
value (pandas NaN). -/
inductive Cell where
  | str : String → Cell
  | int : Int → Cell
  | na : Cell
deriving DecidableEq, Repr

/-- One record of a loaded BED table: chromosome, the two coordinate cells
(`none` = NaN after numeric coercion), and the remaining annotation cells. -/
structure BedRow where
  chrom : String
  start : Option Int
  stop : Option Int
  extra : List (Option String)
deriving DecidableEq, Repr

/-- A convenient three-column row with both coordinates present. -/
def mkRow3 (c : String) (s e : Int) : BedRow := ⟨c, some s, some e, []⟩

/-! ## Loader (src/preview.py, `load_bed`) -/

/-- The canonical 12-column BED schema (src/preview.py lines 20-22). -/
def bedCols : List String :=
  ["chrom", "start", "end", "name", "score", "strand", "thickStart",
   "thickEnd", "itemRgb", "blockCount", "blockSizes", "blockStarts"]

def parseNatGo : Nat → List Char → Option Nat
  | acc, [] => some acc
  | acc, c :: cs => if c.isDigit then parseNatGo (acc * 10 + (c.toNat - 48)) cs else none

def parseNatChars (l : List Char) : Option Nat :=
  if l.isEmpty then none else parseNatGo 0 l

/-- Integer parsing, modelling `pd.to_numeric(..., errors="coerce")` on a
cell (restricted to integer literals; BED coordinates are integers). -/
def parseIntStr (s : String) : Option Int :=
  match s.toList with
  | '-' :: rest => (parseNatChars rest).map (fun n => -(n : Int))
  | l => (parseNatChars l).map (fun n => (n : Int))

/-- Numeric coercion of one cell: an integer or NaN. -/
def parseIntCell (s : String) : Cell :=
  match parseIntStr s with
  | some z => .int z
  | none => .na

/-- The `start > end` test on one loaded row (src/preview.py line 38).  pandas
comparisons against NaN are `False`, so only rows with both coordinates
present can trigger it. -/
def rowStartGTend (row : List Cell) : Bool :=
  match row.get? 1, row.get? 2 with
  | some (.int s), some (.int e) => decide (s > e)
  | _, _ => false

/-- `load_bed` of src/preview.py lines 9-47, on the parsed non-comment rows of
the raw text (each inner list is one row's tab-separated cells; pandas fixes
the column count from the first row).  Returns the labeled table, or `none`
where the source returns `None`: assigning `bed_cols[:len(df.columns)]` to a
table of more than 12 columns raises a length-mismatch `ValueError` that the
`except` turns into `None`; fewer than 3 columns and a `start > end` row also
yield `None`. -/
def load_bed (rows : List (List String)) : Option (List String × List (List Cell)) :=
  if rows.isEmpty then none
  else
    let ncols := (rows.headD []).length
    if ncols ≤ bedCols.length then
      let cols := bedCols.take ncols
      let table := rows.map fun row =>
        row.mapIdx fun j s => if j = 1 ∨ j = 2 then parseIntCell s else .str s
      if ncols < 3 then none
      else if table.any rowStartGTend then none
      else some (cols, table)
    else none

/-! ## Sort engine (src/sort.py, `sort_bed`)

`df.sort_values(by=["chrom", "start", "end"])` is a stable lexicographic sort
whose key orders chromosomes lexically and coordinates numerically, NaN
sorting last within each level. -/

/-- A coordinate as a sort key: NaN (`none`) sorts last. -/
def otop : Option Int → WithTop Int
  | none => ⊤
  | some z => (z : WithTop Int)

/-- The lexicographic `(chrom, start, end)` sort key of a row. -/
def sortKey (r : BedRow) : Lex ((List Char) × Lex ((WithTop Int) × (WithTop Int))) :=
  toLex (r.chrom.toList, toLex (otop r.start, otop r.stop))

def sle (r s : BedRow) : Prop := sortKey r ≤ sortKey s

instance : DecidableRel sle := fun r s => inferInstanceAs (Decidable (sortKey r ≤ sortKey s))

instance : IsTotal BedRow sle := ⟨fun a b => le_total (sortKey a) (sortKey b)⟩

instance : IsTrans BedRow sle := ⟨fun _ _ _ hab hbc => le_trans hab hbc⟩

/-- `sort_bed` of src/sort.py lines 4-8. -/
def sort_bed (df : List BedRow) : List BedRow := List.insertionSort sle df

/-! ## Merge engine (src/mergeBed.py, `merge_bed_files`) -/

/-- A row of the merge scan: after `pd.to_numeric` and `df.dropna(inplace=True)`
every surviving row has integer coordinates and no NaN anywhere. -/
structure MRow where
  chrom : String
  start : Int
  stop : Int
  extra : List String
deriving DecidableEq, Repr

/-- The annotation cells survive `df.dropna` iff none is NaN. -/
def extraClean : List (Option String) → Option (List String)
  | [] => some []
  | none :: _ => none
  | some s :: l => (extraClean l).map (fun ex => s :: ex)

/-- The coercion-and-dropna stage of `merge_bed_files` (lines 13-15) applied
to one row: the row survives iff no cell is NaN. -/
def rowClean (r : BedRow) : Option MRow :=
  match r.start, r.stop, extraClean r.extra with
  | some s, some e, some ex => some ⟨r.chrom, s, e, ex⟩
  | _, _, _ => none

/-- A clean row as the caller sees it in the returned frame. -/
def toRaw (m : MRow) : BedRow := ⟨m.chrom, some m.start, some m.stop, m.extra.map some⟩

/-- The `(chrom, start, end)` key of `df.sort_values(cols)` in
`merge_bed_files` (line 18). -/
def mkey (m : MRow) : Lex ((List Char) × Lex ((WithTop Int) × (WithTop Int))) :=
  toLex (m.chrom.toList, toLex ((m.start : WithTop Int), (m.stop : WithTop Int)))

def mle (r s : MRow) : Prop := mkey r ≤ mkey s

instance : DecidableRel mle := fun r s => inferInstanceAs (Decidable (mkey r ≤ mkey s))

instance : IsTotal MRow mle := ⟨fun a b => le_total (mkey a) (mkey b)⟩

instance : IsTrans MRow mle := ⟨fun _ _ _ hab hbc => le_trans hab hbc⟩

/-- The forward scan of `merge_bed_files` (src/mergeBed.py lines 21-35): one
open accumulator `current`; a row of the same chromosome whose start is `≤`
the accumulator's end extends the accumulator's end to the max of the two
ends, any other row flushes the accumulator and seeds a new one. -/
def mergeScan : Option MRow → List MRow → List MRow
  | none, [] => []
  | none, r :: rs => mergeScan (some r) rs
  | some c, [] => [c]
  | some c, r :: rs =>
    if r.chrom = c.chrom ∧ r.start ≤ c.stop then
      mergeScan (some { c with stop := max c.stop r.stop }) rs
    else
      c :: mergeScan (some r) rs

/-- The row transformation of `merge_bed_files`: numeric coercion and dropna,
sort by `(chrom, start, end)`, then the forward merge scan.  All columns of a
merged record other than `end` are retained from the record that seeded the
accumulator. -/
def merge_rows (df : List BedRow) : List BedRow :=
  (mergeScan none (List.insertionSort mle (df.filterMap rowClean))).map toRaw

/-- A DataFrame as the merge engine consumes and produces it: `cols` records
whether the frame carries its columns.  Every loaded table has its columns,
but `pd.DataFrame([])` — what `merge_bed_files` builds when the scan emitted
no record (line 37 on an empty `merged` list) — is a frame with NO columns at
all, and reading `df['start']` from such a frame raises `KeyError`. -/
structure Frame where
  cols : Bool
  rows : List BedRow
deriving DecidableEq, Repr

/-- `merge_bed_files` of src/mergeBed.py lines 5-37: numeric coercion and
dropna, sort by `(chrom, start, end)`, then the forward merge scan, returning
`pd.DataFrame(merged)`.  When the input frame has no columns — merge's own
empty output is such a frame — line 13 (`pd.to_numeric(df['start'], ...)`)
raises an uncaught `KeyError: 'start'`, modelled as `none`; a non-empty
`merged` list yields a frame with columns (the dict keys), an empty one
yields the column-less `pd.DataFrame([])`. -/
def merge_bed_files (df : Frame) : Option Frame :=
  if df.cols then
    let out := merge_rows df.rows
    some ⟨!out.isEmpty, out⟩
  else none

/-- What the CALLER's dataframe holds after `merge_bed_files(df)` returns:
lines 13-15 assign the coerced `start`/`end` columns back into the caller's
frame (the identity under this embedding's cell model) and run
`df.dropna(inplace=True)` on it, so every row with a NaN cell is removed from
the caller's table. -/
def merge_caller_view (df : List BedRow) : List BedRow :=
  df.filter fun r => (rowClean r).isSome

/-! ## Intersection engine (src/intersectBed.py, `intersect_bedtools_advanced`) -/

/-- A record of the three-column working frames `df_a`/`df_b` (lines 74-88):
first three columns, coordinates coerced, NaN rows dropped. -/
structure IRec where
  chrom : String
  start : Int
  stop : Int
deriving DecidableEq, Repr

/-- `df.iloc[:, :3]` + numeric coercion + `dropna()` (lines 74-88). -/
def prep (df : List BedRow) : List IRec :=
  df.filterMap fun r =>
    match r.start, r.stop with
    | some s, some e => some ⟨r.chrom, s, e⟩
    | _, _ => none

/-- An `IRec` as a three-column input row. -/
def irecRow (a : IRec) : BedRow := ⟨a.chrom, some a.start, some a.stop, []⟩

/-- The recognized options, with the defaults `options.get` supplies
(lines 145, 162-176).  `f` is the minimum-overlap fraction the caller passes
(line 245: `min_overlap / 100.0`). -/
structure Options where
  wa : Bool := true
  wb : Bool := true
  wo : Bool := false
  v : Bool := false
  f : Rat := 0

/-- The overlap mask of line 122: `(b_starts < end_a) & (b_ends > start_a)`. -/
def overlapTest (a b : IRec) : Bool :=
  decide (b.start < a.stop) && decide (b.stop > a.start)

/-- The computed overlap length of lines 131-133:
`min(end_a, end_b) - max(start_a, start_b)`. -/
def overlapLen (a b : IRec) : Int :=
  min a.stop b.stop - max a.start b.start

/-- The condition under which the scan emits a result row for a pair
(lines 122 and 135): the overlap mask AND `overlap_length > 0`. -/
def emitB (a b : IRec) : Bool :=
  overlapTest a b && decide (0 < overlapLen a b)

/-- `drop_duplicates()`: keep the first occurrence of every row. -/
def dedupGo {α : Type} [DecidableEq α] : List α → List α → List α
  | _, [] => []
  | seen, a :: l =>
    if a ∈ seen then dedupGo seen l else a :: dedupGo (a :: seen) l

def dedupKeepFirst {α : Type} [DecidableEq α] (l : List α) : List α := dedupGo [] l

/-- The distinct chromosomes of a frame, in order of first appearance. -/
def chromsOf (t : List IRec) : List String := dedupKeepFirst (t.map IRec.chrom)

/-- The common chromosomes of line 96 (`set(...) & set(...)`; a Python set
iterates in unspecified order — the embedding fixes A's first-appearance
order, and no claim depends on the cross-chromosome row order). -/
def commonChroms (a b : List IRec) : List String :=
  (chromsOf a).filter fun c => decide (c ∈ b.map IRec.chrom)

/-- The pair scan of lines 120-148 within one chromosome: for every A-record
in order, every B-record passing the mask and the positive-length check. -/
def chromPairs (aC bC : List IRec) : List (IRec × IRec) :=
  aC.flatMap fun x => (bC.filter fun y => emitB x y).map fun y => (x, y)

/-- All result pairs, chromosome group by chromosome group (lines 105-148). -/
def allPairs (a b : List IRec) : List (IRec × IRec) :=
  (commonChroms a b).flatMap fun c =>
    chromPairs (a.filter fun r => decide (r.chrom = c))
      (b.filter fun r => decide (r.chrom = c))

def aTriple (p : IRec × IRec) : List Cell :=
  [.str p.1.chrom, .int p.1.start, .int p.1.stop]

def bTriple (p : IRec × IRec) : List Cell :=
  [.str p.2.chrom, .int p.2.start, .int p.2.stop]

def sixRow (p : IRec × IRec) : List Cell :=
  [.str p.1.chrom, .int p.1.start, .int p.1.stop,
   .str p.2.chrom, .int p.2.start, .int p.2.stop]

def sevenRow (p : IRec × IRec) : List Cell :=
  sixRow p ++ [.int (overlapLen p.1 p.2)]

/-- The column selection of lines 158-173 (priority order: `wo`, then
`wa ∧ wb`, then `wa`, then `wb`, then the default). -/
def project (opts : Options) (ps : List (IRec × IRec)) : List (List Cell) :=
  if opts.wo then ps.map sevenRow
  else if opts.wa && opts.wb then ps.map sixRow
  else if opts.wa then dedupKeepFirst (ps.map aTriple)
  else if opts.wb then dedupKeepFirst (ps.map bTriple)
  else dedupKeepFirst (ps.map aTriple)

/-- Whether some B-record marks this A-record as intersecting in the `v`
block (lines 182-195): the scan walks the common chromosome groups, which
marks an A-record exactly when some B-record of the same chromosome passes
the overlap mask. -/
def aHasOverlap (b : List IRec) (x : IRec) : Bool :=
  b.any fun s => decide (s.chrom = x.chrom) && overlapTest x s

/-- The `v` output of lines 197-200: the A-records never marked as
intersecting, in A's order, as chrom/start/end triples. -/
def vRows (a b : List IRec) : List (List Cell) :=
  (a.filter fun r => ! aHasOverlap b r).map fun r =>
    [Cell.str r.chrom, Cell.int r.start, Cell.int r.stop]

/-- `intersect_bedtools_advanced` of src/intersectBed.py lines 64-202:
prepare the three-column frames, return an empty table when no chromosome is
common (line 98-100) or when the pair scan found nothing (lines 152-154),
otherwise project the pair rows by the options — unless `v` is set, in which
case the non-intersecting A-records replace the projection (lines 176-200).
The option `f` is never read by the function. -/
def intersect_bedtools_advanced (df1 df2 : List BedRow) (opts : Options) :
    List (List Cell) :=
  let a := prep df1
  let b := prep df2
  if (commonChroms a b).isEmpty then []
  else if (allPairs a b).isEmpty then []
  else if opts.v then vRows a b
  else project opts (allPairs a b)

/-- Modelled from the spec, for comparison with the code (claim C1): "When
`v` is set ... the engine instead emits, for every A-record, a row iff no
B-record in any chromosome overlaps it", overlap being the strict test on
same-chromosome records. -/
def vModeSpecRows (a b : List IRec) : List (List Cell) :=
  (a.filter fun r =>
      decide (¬ ∃ s ∈ b, s.chrom = r.chrom ∧ s.start < r.stop ∧ s.stop > r.start)).map
    fun r => [Cell.str r.chrom, Cell.int r.start, Cell.int r.stop]

/-! ## Quality scanner (src/app.py, `detect_bed_problems`) -/

/-- Python's substring test `pat in s` (`str.contains`, case-sensitive). -/
def containsSub (s pat : String) : Bool :=
  s.toList.tails.any fun t => pat.toList.isPrefixOf t

/-- The fixed assembly-artifact substrings of src/app.py line 32. -/
def bizarrePatterns : List String :=
  ["_hap", "_CTG", "_v", "KI", "GL", "JH", "NT", "NW_"]

/-- The quality report of `detect_bed_problems` (src/app.py lines 12-44). -/
structure Problems where
  chrUn : Nat
  random : Nat
  alt : Nat
  scaffold : Nat
  inverted_coords : Nat
  other_bizarre : Nat
  total : Nat
deriving DecidableEq, Repr

/-- `detect_bed_problems` of src/app.py lines 12-44: count the chromosome
names containing each pattern (categories are counted independently, so one
record may be counted several times), count the rows with `start >= end`
(pandas comparisons against NaN are `False`), and total the six counts. -/
def detect_bed_problems (df : List BedRow) : Problems :=
  let chroms := df.map BedRow.chrom
  let cU := (chroms.filter fun c => containsSub c "chrUn").length
  let cR := (chroms.filter fun c => containsSub c "random").length
  let cA := (chroms.filter fun c => containsSub c "_alt").length
  let cS := (chroms.filter fun c => containsSub c "scaffold").length
  let cB := (bizarrePatterns.map fun p =>
    (chroms.filter fun c => containsSub c p).length).sum
  let cI := (df.filter fun r =>
    match r.start, r.stop with
    | some s, some e => decide (s ≥ e)
    | _, _ => false).length
  ⟨cU, cR, cA, cS, cI, cB, cU + cR + cA + cS + cI + cB⟩

/-! ## Derived predicates used by the theorems -/

/-- Strict separation of two merged records on the same chromosome. -/
def msep (x y : MRow) : Prop := x.chrom = y.chrom → x.stop < y.start

/-- The ranges of two output rows overlap or touch (closed adjacency):
`[s1, e1]` and `[s2, e2]` share a point, i.e. `s1 ≤ e2 ∧ s2 ≤ e1`. -/
def rangesTouchOrOverlap (r1 r2 : BedRow) : Prop :=
  ∃ s1 e1 s2 e2 : Int, r1.start = some s1 ∧ r1.stop = some e1 ∧
    r2.start = some s2 ∧ r2.stop = some e2 ∧ s1 ≤ e2 ∧ s2 ≤ e1

/-! ## Order lemmas for the merge key -/

lemma mle_iff (r s : MRow) :
    mle r s ↔ r.chrom.toList < s.chrom.toList ∨
      (r.chrom = s.chrom ∧ (r.start < s.start ∨ (r.start = s.start ∧ r.stop ≤ s.stop))) := by
  simp [mle, mkey, Prod.Lex.le_iff, WithTop.coe_lt_coe, WithTop.coe_le_coe,
    WithTop.coe_inj, String.ext_iff]

lemma mle_of_same_chrom {x y : MRow} (hc : x.chrom = y.chrom)
    (h : x.start < y.start ∨ (x.start = y.start ∧ x.stop ≤ y.stop)) : mle x y :=
  (mle_iff x y).mpr (Or.inr ⟨hc, h⟩)

lemma mle_chrom_le {x y : MRow} (h : mle x y) :
    x.chrom.toList < y.chrom.toList ∨ x.chrom = y.chrom := by
  rw [mle_iff] at h
  rcases h with h | ⟨h, _⟩
  · exact Or.inl h
  · exact Or.inr h

lemma mle_cases {x y : MRow} (h : mle x y) (hc : x.chrom = y.chrom) :
    x.start < y.start ∨ (x.start = y.start ∧ x.stop ≤ y.stop) := by
  rw [mle_iff] at h
  rcases h with h | ⟨_, h⟩
  · rw [hc] at h
    exact absurd h (lt_irrefl _)
  · exact h

lemma mle_merge_acc (c r : MRow) : mle c { c with stop := max c.stop r.stop } :=
  mle_of_same_chrom rfl (Or.inr ⟨rfl, le_max_left _ _⟩)

/-! ## Invariants of the merge scan -/

lemma sorted_merge_step {c r : MRow} {rs : List MRow}
    (h : List.Sorted mle (c :: r :: rs)) :
    List.Sorted mle ({ c with stop := max c.stop r.stop } :: rs) := by
  simp only [List.sorted_cons, List.mem_cons, forall_eq_or_imp] at h ⊢
  obtain ⟨⟨hcr, hcb⟩, hrb, hrs⟩ := h
  refine ⟨fun b hb => ?_, hrs⟩
  have hcb' := hcb b hb
  have hrb' := hrb b hb
  rw [mle_iff] at hcb' ⊢
  rcases hcb' with h1 | ⟨h1, h2⟩
  · exact Or.inl h1
  · refine Or.inr ⟨h1, ?_⟩
    rcases h2 with h2 | ⟨h2, h3⟩
    · exact Or.inl h2
    · refine Or.inr ⟨h2, ?_⟩
      show max c.stop r.stop ≤ b.stop
      rcases mle_chrom_le hcr with g | g
      · rcases mle_chrom_le hrb' with k | k
        · have hlt : c.chrom.toList < b.chrom.toList := lt_trans g k
          rw [h1] at hlt
          exact absurd hlt (lt_irrefl _)
        · rw [k, h1] at g
          exact absurd g (lt_irrefl _)
      · have hrbchrom : r.chrom = b.chrom := g.symm.trans h1
        have i1 := mle_cases hcr g
        have i2 := mle_cases hrb' hrbchrom
        rcases i1 with i1 | ⟨i1a, i1b⟩ <;> rcases i2 with i2 | ⟨i2a, i2b⟩ <;> omega

lemma mergeScan_bound : ∀ {rs : List MRow} {c x : MRow},
    List.Sorted mle (c :: rs) → x ∈ mergeScan (some c) rs → mle c x := by
  intro rs
  induction rs with
  | nil =>
    intro c x _ hx
    simp only [mergeScan, List.mem_singleton] at hx
    subst hx
    exact le_refl (mkey x)
  | cons r rs ih =>
    intro c x h hx
    by_cases hcond : r.chrom = c.chrom ∧ r.start ≤ c.stop
    · rw [mergeScan, if_pos hcond] at hx
      exact le_trans (mle_merge_acc c r) (ih (sorted_merge_step h) hx)
    · rw [mergeScan, if_neg hcond] at hx
      rcases List.mem_cons.mp hx with hx | hx
      · subst hx
        exact le_refl (mkey x)
      · exact le_trans (List.rel_of_sorted_cons h r (List.mem_cons_self _ _))
          (ih h.of_cons hx)

lemma mergeScan_sep : ∀ {rs : List MRow} {c : MRow},
    List.Sorted mle (c :: rs) → List.Pairwise msep (mergeScan (some c) rs) := by
  intro rs
  induction rs with
  | nil =>
    intro c _
    simp [mergeScan]
  | cons r rs ih =>
    intro c h
    by_cases hcond : r.chrom = c.chrom ∧ r.start ≤ c.stop
    · rw [mergeScan, if_pos hcond]
      exact ih (sorted_merge_step h)
    · rw [mergeScan, if_neg hcond]
      refine List.Pairwise.cons (fun x hx hcx => ?_) (ih h.of_cons)
      have hcr : mle c r := List.rel_of_sorted_cons h r (List.mem_cons_self _ _)
      have hrx : mle r x := mergeScan_bound h.of_cons hx
      rcases mle_chrom_le hcr with g | g
      · rcases mle_chrom_le hrx with k | k
        · have hlt : c.chrom.toList < x.chrom.toList := lt_trans g k
          rw [hcx] at hlt
          exact absurd hlt (lt_irrefl _)
        · rw [k, hcx] at g
          exact absurd g (lt_irrefl _)
      · have hns : ¬ r.start ≤ c.stop := fun hle => hcond ⟨g.symm, hle⟩
        have := mle_cases hrx (g.symm.trans hcx)
        omega

lemma mergeScan_sorted : ∀ {rs : List MRow} {c : MRow},
    List.Sorted mle (c :: rs) → List.Sorted mle (mergeScan (some c) rs) := by
  intro rs
  induction rs with
  | nil =>
    intro c _
    simp [mergeScan]
  | cons r rs ih =>
    intro c h
    by_cases hcond : r.chrom = c.chrom ∧ r.start ≤ c.stop
    · rw [mergeScan, if_pos hcond]
      exact ih (sorted_merge_step h)
    · rw [mergeScan, if_neg hcond]
      rw [List.sorted_cons]
      refine ⟨fun x hx => ?_, ih h.of_cons⟩
      exact le_trans (List.rel_of_sorted_cons h r (List.mem_cons_self _ _))
        (mergeScan_bound h.of_cons hx)

lemma mergeScan_id_aux : ∀ {l : List MRow} {c : MRow},
    List.Pairwise msep (c :: l) → mergeScan (some c) l = c :: l := by
  intro l
  induction l with
  | nil => intro c _; rfl
  | cons r rs ih =>
    intro c h
    have hsep : msep c r := (List.pairwise_cons.mp h).1 r (List.mem_cons_self _ _)
    have hcond : ¬ (r.chrom = c.chrom ∧ r.start ≤ c.stop) := by
      rintro ⟨h1, h2⟩
      have := hsep h1.symm
      omega
    rw [mergeScan, if_neg hcond, ih (List.pairwise_cons.mp h).2]

lemma mergeScan_id {l : List MRow} (h : List.Pairwise msep l) :
    mergeScan none l = l := by
  cases l with
  | nil => rfl
  | cons c rs => rw [mergeScan]; exact mergeScan_id_aux h

lemma extraClean_map_some (l : List String) : extraClean (l.map some) = some l := by
  induction l with
  | nil => rfl
  | cons a l ih => simp [extraClean, ih]

lemma rowClean_toRaw (m : MRow) : rowClean (toRaw m) = some m := by
  simp [rowClean, toRaw, extraClean_map_some]

lemma filterMap_rowClean_map_toRaw (l : List MRow) :
    (l.map toRaw).filterMap rowClean = l := by
  induction l with
  | nil => rfl
  | cons m l ih => simp [rowClean_toRaw, ih]

lemma merge_rows_eq (df : List BedRow) :
    merge_rows df =
      (mergeScan none (List.insertionSort mle (df.filterMap rowClean))).map toRaw := rfl

lemma merge_core_sorted (l : List MRow) :
    List.Sorted mle (mergeScan none (List.insertionSort mle l)) := by
  have hs := List.sorted_insertionSort mle l
  cases h : List.insertionSort mle l with
  | nil => simp [mergeScan]
  | cons c rs =>
    rw [h] at hs
    rw [mergeScan]
    exact mergeScan_sorted hs

lemma merge_core_sep (l : List MRow) :
    List.Pairwise msep (mergeScan none (List.insertionSort mle l)) := by
  have hs := List.sorted_insertionSort mle l
  cases h : List.insertionSort mle l with
  | nil => simp [mergeScan]
  | cons c rs =>
    rw [h] at hs
    rw [mergeScan]
    exact mergeScan_sep hs

lemma merge_rows_maximal (df : List BedRow) :
    (merge_rows df).Pairwise
      (fun r1 r2 => r1.chrom = r2.chrom → ¬ rangesTouchOrOverlap r1 r2) := by
  rw [merge_rows_eq, List.pairwise_map]
  refine (merge_core_sep (df.filterMap rowClean)).imp ?_
  intro m1 m2 hsep hc
  rintro ⟨s1, e1, s2, e2, h1, h2, h3, h4, h5, h6⟩
  simp only [toRaw, Option.some.injEq] at h1 h2 h3 h4
  have hchrom : m1.chrom = m2.chrom := hc
  have := hsep hchrom
  omega

lemma merge_rows_idem (df : List BedRow) :
    merge_rows (merge_rows df) = merge_rows df := by
  rw [merge_rows_eq df, merge_rows_eq]
  rw [filterMap_rowClean_map_toRaw]
  rw [(merge_core_sorted (df.filterMap rowClean)).insertionSort_eq]
  rw [mergeScan_id (merge_core_sep (df.filterMap rowClean))]

lemma mergeScan_some_ne_nil : ∀ (rs : List MRow) (c : MRow), mergeScan (some c) rs ≠ [] := by
  intro rs
  induction rs with
  | nil =>
    intro c
    simp [mergeScan]
  | cons r rs ih =>
    intro c
    by_cases hcond : r.chrom = c.chrom ∧ r.start ≤ c.stop
    · rw [mergeScan, if_pos hcond]
      exact ih _
    · rw [mergeScan, if_neg hcond]
      simp

lemma merge_rows_ne_nil (df : List BedRow) (h : df.filterMap rowClean ≠ []) :
    merge_rows df ≠ [] := by
  rw [merge_rows_eq]
  cases hS : List.insertionSort mle (df.filterMap rowClean) with
  | nil =>
    have hlen := List.length_insertionSort mle (df.filterMap rowClean)
    rw [hS] at hlen
    exact absurd (List.length_eq_zero.mp hlen.symm) h
  | cons c rs =>
    rw [mergeScan]
    intro hmap
    exact mergeScan_some_ne_nil rs c (List.map_eq_nil_iff.mp hmap)

/-! ## Stability of the sort engine -/

lemma sle_of_keyTup_eq {a b : BedRow}
    (h : (a.chrom, a.start, a.stop) = (b.chrom, b.start, b.stop)) : sle a b := by
  simp only [Prod.mk.injEq] at h
  obtain ⟨h1, h2, h3⟩ := h
  have hk : sortKey a = sortKey b := by simp [sortKey, h1, h2, h3]
  exact le_of_eq hk

lemma filter_orderedInsert_eqKey (a : BedRow) (k : String × Option Int × Option Int)
    (hk : (a.chrom, a.start, a.stop) = k) (l : List BedRow) :
    (List.orderedInsert sle a l).filter (fun r => decide ((r.chrom, r.start, r.stop) = k))
      = a :: l.filter (fun r => decide ((r.chrom, r.start, r.stop) = k)) := by
  induction l with
  | nil => simp [hk]
  | cons b l ih =>
    by_cases hab : sle a b
    · rw [List.orderedInsert, if_pos hab]
      simp [List.filter_cons, hk]
    · rw [List.orderedInsert, if_neg hab]
      have hpb : ¬ ((b.chrom, b.start, b.stop) = k) := by
        intro hb
        exact hab (sle_of_keyTup_eq (hk.trans hb.symm))
      simp [List.filter_cons, hpb, ih]

lemma filter_orderedInsert_neKey (a : BedRow) (k : String × Option Int × Option Int)
    (hk : ¬ ((a.chrom, a.start, a.stop) = k)) (l : List BedRow) :
    (List.orderedInsert sle a l).filter (fun r => decide ((r.chrom, r.start, r.stop) = k))
      = l.filter (fun r => decide ((r.chrom, r.start, r.stop) = k)) := by
  induction l with
  | nil => simp [hk]
  | cons b l ih =>
    by_cases hab : sle a b
    · rw [List.orderedInsert, if_pos hab]
      simp [List.filter_cons, hk]
    · rw [List.orderedInsert, if_neg hab]
      simp [List.filter_cons, ih]

lemma insertionSort_sle_stable (df : List BedRow) (k : String × Option Int × Option Int) :
    (List.insertionSort sle df).filter (fun r => decide ((r.chrom, r.start, r.stop) = k))
      = df.filter (fun r => decide ((r.chrom, r.start, r.stop) = k)) := by
  induction df with
  | nil => rfl
  | cons a df ih =>
    show (List.orderedInsert sle a (List.insertionSort sle df)).filter _ = _
    by_cases hk : (a.chrom, a.start, a.stop) = k
    · rw [filter_orderedInsert_eqKey a k hk]
      simp [List.filter_cons, hk, ih]
    · rw [filter_orderedInsert_neKey a k hk]
      simp [List.filter_cons, hk, ih]

lemma sort_bed_stable (df : List BedRow) (k : String × Option Int × Option Int) :
    (sort_bed df).filter (fun r => decide ((r.chrom, r.start, r.stop) = k))
      = df.filter (fun r => decide ((r.chrom, r.start, r.stop) = k)) :=
  insertionSort_sle_stable df k

/-! ## Lemmas about the intersection engine -/

lemma overlapLen_pos {a b : IRec} (ha : a.start < a.stop) (hb : b.start < b.stop)
    (h : overlapTest a b = true) : 0 < overlapLen a b := by
  simp only [overlapTest, Bool.and_eq_true, decide_eq_true_eq] at h
  simp only [overlapLen]
  omega

lemma emitB_eq_overlapTest {a b : IRec} (ha : a.start < a.stop) (hb : b.start < b.stop) :
    emitB a b = overlapTest a b := by
  cases h : overlapTest a b with
  | false => simp [emitB, h]
  | true => simp [emitB, h, overlapLen_pos ha hb h]

lemma aHasOverlap_iff (b : List IRec) (r : IRec) :
    aHasOverlap b r = true ↔
      ∃ s ∈ b, s.chrom = r.chrom ∧ s.start < r.stop ∧ s.stop > r.start := by
  simp [aHasOverlap, overlapTest, List.any_eq_true, and_assoc]

lemma vRows_eq_spec (a b : List IRec) : vRows a b = vModeSpecRows a b := by
  unfold vRows vModeSpecRows
  refine congrArg _ ?_
  apply List.filter_congr
  intro r _
  by_cases hx : ∃ s ∈ b, s.chrom = r.chrom ∧ s.start < r.stop ∧ s.stop > r.start
  · simp [(aHasOverlap_iff b r).mpr hx, hx]
  · have hfalse : aHasOverlap b r = false := by
      rw [← Bool.not_eq_true]
      exact fun hh => hx ((aHasOverlap_iff b r).mp hh)
    simp [hfalse, hx]

lemma isEmpty_false_of_ne {α : Type} {l : List α} (h : l ≠ []) : l.isEmpty = false := by
  cases l with
  | nil => exact absurd rfl h
  | cons a l => rfl

lemma prep_irecRow (a : IRec) : prep [irecRow a] = [a] := rfl

lemma commonChroms_singletons {a b : IRec} (hc : a.chrom = b.chrom) :
    commonChroms [a] [b] = [a.chrom] := by
  simp [commonChroms, chromsOf, dedupKeepFirst, dedupGo, hc]

lemma allPairs_singletons {a b : IRec} (hc : a.chrom = b.chrom) :
    allPairs [a] [b] = if emitB a b then [(a, b)] else [] := by
  by_cases he : emitB a b = true
  · simp [allPairs, commonChroms_singletons hc, chromPairs, hc, he]
  · simp [allPairs, commonChroms_singletons hc, chromPairs, hc, he]

lemma intersect_singletons {a b : IRec} (hc : a.chrom = b.chrom) :
    intersect_bedtools_advanced [irecRow a] [irecRow b] {} =
      if emitB a b then [sixRow (a, b)] else [] := by
  by_cases he : emitB a b = true
  · simp [intersect_bedtools_advanced, prep_irecRow, commonChroms_singletons hc,
      allPairs_singletons hc, he, project, sixRow]
  · simp [intersect_bedtools_advanced, prep_irecRow, commonChroms_singletons hc,
      allPairs_singletons hc, he]

/-! ## Lemmas about the loader -/

lemma bedCols_length : bedCols.length = 12 := rfl

/-! ## The claims -/

/-- Claim C1, counterexample: with `v` set, table A = `[chr1 0 10]` and table
B = `[chr2 0 10]` share no chromosome, so no B-record overlaps the A-record
and the claim demands one output row for it — but the engine returns the
empty table (the `if not common_chroms: return pd.DataFrame()` early return
precedes the `v` logic), differing from the claimed v-mode semantics. -/
theorem v_mode_counterexample :
    intersect_bedtools_advanced [mkRow3 "chr1" 0 10] [mkRow3 "chr2" 0 10] { v := true } = []
    ∧ vModeSpecRows (prep [mkRow3 "chr1" 0 10]) (prep [mkRow3 "chr2" 0 10])
        = [[Cell.str "chr1", Cell.int 0, Cell.int 10]]
    ∧ intersect_bedtools_advanced [mkRow3 "chr1" 0 10] [mkRow3 "chr2" 0 10] { v := true }
        ≠ vModeSpecRows (prep [mkRow3 "chr1" 0 10]) (prep [mkRow3 "chr2" 0 10]) :=
  ⟨by decide, by decide, by decide⟩

/-- Claim C1, amended: when `v` is set AND the two tables share at least one
chromosome AND the pair scan finds at least one emitted pair, the engine
emits, for every A-record, one row iff no B-record (on any chromosome)
overlaps it — exactly the claimed v-mode table; when no chromosome is shared
or no pair is found, the engine instead returns the empty table. -/
theorem v_mode_amended (df1 df2 : List BedRow) (opts : Options) (hv : opts.v = true) :
    (commonChroms (prep df1) (prep df2) ≠ [] → allPairs (prep df1) (prep df2) ≠ [] →
      intersect_bedtools_advanced df1 df2 opts = vModeSpecRows (prep df1) (prep df2))
    ∧ ((commonChroms (prep df1) (prep df2) = [] ∨ allPairs (prep df1) (prep df2) = []) →
      intersect_bedtools_advanced df1 df2 opts = []) := by
  constructor
  · intro h1 h2
    simp [intersect_bedtools_advanced, isEmpty_false_of_ne h1, isEmpty_false_of_ne h2,
      hv, vRows_eq_spec]
  · intro h
    rcases h with h | h
    · simp [intersect_bedtools_advanced, h]
    · by_cases hc : commonChroms (prep df1) (prep df2) = []
      · simp [intersect_bedtools_advanced, hc]
      · simp [intersect_bedtools_advanced, isEmpty_false_of_ne hc, h]

/-- Claim C1, witness: a concrete run in which the amended hypotheses hold —
A = `[chr1 0 10, chr1 100 110]`, B = `[chr1 5 6]` share `chr1` and the pair
scan finds the overlap of `[0,10)` with `[5,6)` — and v-mode output equals
the claimed table (the record `[100,110)` alone). -/
theorem v_mode_amended_witness :
    intersect_bedtools_advanced [mkRow3 "chr1" 0 10, mkRow3 "chr1" 100 110]
        [mkRow3 "chr1" 5 6] { v := true }
      = vModeSpecRows (prep [mkRow3 "chr1" 0 10, mkRow3 "chr1" 100 110])
          (prep [mkRow3 "chr1" 5 6]) :=
  (v_mode_amended [mkRow3 "chr1" 0 10, mkRow3 "chr1" 100 110] [mkRow3 "chr1" 5 6]
      { v := true } rfl).1 (by decide) (by decide)

/-- Claim C2, counterexample: with `f = 1/2`, A = `[chr1 0 100]` and
B = `[chr1 0 1]` overlap on 1 of A's 100 bases (fraction `1/100 < 1/2`), yet
the engine still emits the pair row — `options['f']` is never read, so the
minimum-overlap fraction is not applied. -/
theorem min_fraction_counterexample :
    intersect_bedtools_advanced [mkRow3 "chr1" 0 100] [mkRow3 "chr1" 0 1] { f := 1/2 } =
      [[Cell.str "chr1", Cell.int 0, Cell.int 100, Cell.str "chr1", Cell.int 0, Cell.int 1]]
    ∧ ((overlapLen ⟨"chr1", 0, 100⟩ ⟨"chr1", 0, 1⟩ : Int) : Rat) /
        (((⟨"chr1", 0, 100⟩ : IRec).stop - (⟨"chr1", 0, 100⟩ : IRec).start : Int) : Rat)
      < ({ f := 1/2 } : Options).f := by
  constructor
  · decide
  · norm_num [overlapLen]

/-- Claim C2, amended: the engine accepts `f` as configuration but never
applies it — its result is identical for every value of `f`, i.e. it always
behaves as if `f = 0` (no filtering), so pairs below the fraction threshold
are still emitted. -/
theorem intersect_ignores_f (df1 df2 : List BedRow) (opts : Options) (q : Rat) :
    intersect_bedtools_advanced df1 df2 { opts with f := q } =
      intersect_bedtools_advanced df1 df2 opts := by
  cases opts
  rfl

/-- Claim C3: the engine's overlap mask is exactly the strict half-open test
`b.start < a.end AND b.end > a.start`; for positive-length same-chromosome
singletons the end-to-end result is non-empty iff the test holds; the
boundary pairs behave as claimed — `[10,20)` vs `[20,30)` gives the empty
table under default options, `[10,20)` vs `[19,25)` intersects with overlap
length 1 (the appended `wo` column). -/
theorem intersect_strict_halfopen :
    (∀ a b : IRec, overlapTest a b = true ↔ (b.start < a.stop ∧ b.stop > a.start))
    ∧ (∀ a b : IRec, a.start < a.stop → b.start < b.stop → a.chrom = b.chrom →
        (intersect_bedtools_advanced [irecRow a] [irecRow b] {} ≠ [] ↔
          (b.start < a.stop ∧ b.stop > a.start)))
    ∧ intersect_bedtools_advanced [mkRow3 "chr1" 10 20] [mkRow3 "chr1" 20 30] {} = []
    ∧ intersect_bedtools_advanced [mkRow3 "chr1" 10 20] [mkRow3 "chr1" 19 25] { wo := true } =
        [[Cell.str "chr1", Cell.int 10, Cell.int 20, Cell.str "chr1", Cell.int 19,
          Cell.int 25, Cell.int 1]] := by
  refine ⟨?_, ?_, by decide, by decide⟩
  · intro a b
    simp [overlapTest, Bool.and_eq_true, decide_eq_true_eq]
  · intro a b ha hb hc
    rw [intersect_singletons hc, emitB_eq_overlapTest ha hb]
    by_cases h : overlapTest a b = true
    · have hprops : b.start < a.stop ∧ a.start < b.stop := by
        simpa [overlapTest, Bool.and_eq_true, decide_eq_true_eq] using h
      simp [h, hprops]
    · have h' : overlapTest a b = false := by
        rw [← Bool.not_eq_true]
        exact h
      have hprops : ¬ (b.start < a.stop ∧ a.start < b.stop) := by
        simpa [overlapTest, Bool.and_eq_true, decide_eq_true_eq] using h
      simp [h']
      intro hlt
      by_contra hcon
      exact hprops ⟨hlt, not_le.mp hcon⟩

/-- Claim C4: every table merge produces (it produces none only when the
input frame lost its columns) has no two records on the same chromosome whose
ranges overlap or touch (maximal spans), and a record whose start equals the
accumulator's end is merged into it (closed adjacency): touching inputs
`chr1 [10,20)` and `chr1 [20,30)` collapse to `chr1 [10,30)`, and the spec's
scenario `[10,20) [15,25) [30,40)` collapses to `[10,25) [30,40)`. -/
theorem merge_maximal_spans :
    (∀ (df out : Frame), merge_bed_files df = some out → out.rows.Pairwise
      (fun r1 r2 => r1.chrom = r2.chrom → ¬ rangesTouchOrOverlap r1 r2))
    ∧ merge_bed_files ⟨true, [mkRow3 "chr1" 10 20, mkRow3 "chr1" 20 30]⟩
        = some ⟨true, [mkRow3 "chr1" 10 30]⟩
    ∧ merge_bed_files ⟨true, [mkRow3 "chr1" 10 20, mkRow3 "chr1" 15 25, mkRow3 "chr1" 30 40]⟩
        = some ⟨true, [mkRow3 "chr1" 10 25, mkRow3 "chr1" 30 40]⟩ := by
  refine ⟨?_, by decide, by decide⟩
  intro df out h
  simp only [merge_bed_files] at h
  split_ifs at h
  simp only [Option.some.injEq] at h
  rw [← h]
  exact merge_rows_maximal df.rows

/-- Claim C5, counterexample: at the empty (but still columned) table, merge
returns the column-less `pd.DataFrame([])`, and applying merge to that output
raises `KeyError: 'start'` at line 13 instead of returning it unchanged —
`merge(merge(T))` is not `merge(T)` on exactly the empty-table case the claim
includes (`Option.bind` composes the two calls; `none` is the uncaught
exception). -/
theorem merge_empty_counterexample :
    merge_bed_files ⟨true, []⟩ = some ⟨false, []⟩
    ∧ (merge_bed_files ⟨true, []⟩).bind merge_bed_files = none
    ∧ (merge_bed_files ⟨true, []⟩).bind merge_bed_files ≠ merge_bed_files ⟨true, []⟩ :=
  ⟨by decide, by decide, by decide⟩

/-- Claim C5, amended: merge is idempotent on every table that keeps at least
one row through numeric coercion and dropna — there merge's output is a
non-empty frame that retains its columns, and merging it again returns it
unchanged; when the cleaned row set is empty, merge's output is the
column-less empty frame and the second merge raises instead of returning it. -/
theorem merge_idempotent_amended (df : Frame) (hc : df.cols = true)
    (hne : df.rows.filterMap rowClean ≠ []) :
    (merge_bed_files df).bind merge_bed_files = merge_bed_files df := by
  have h1 : merge_rows df.rows ≠ [] := merge_rows_ne_nil df.rows hne
  have h2 : merge_rows (merge_rows df.rows) ≠ [] := by
    rw [merge_rows_idem]
    exact h1
  simp [merge_bed_files, hc, isEmpty_false_of_ne h1, isEmpty_false_of_ne h2,
    merge_rows_idem]

/-- Claim C5, witness: the amended theorem applied to the concrete one-row
table `chr1 [0,10)`, which survives coercion and dropna. -/
theorem merge_idempotent_amended_witness :
    (merge_bed_files ⟨true, [mkRow3 "chr1" 0 10]⟩).bind merge_bed_files
      = merge_bed_files ⟨true, [mkRow3 "chr1" 0 10]⟩ :=
  merge_idempotent_amended ⟨true, [mkRow3 "chr1" 0 10]⟩ rfl (by decide)

/-- Claim C6, counterexample: the zero-length record `a = chr1 [5,5)` has
valid coordinates (`start ≤ end`) and passes the overlap mask against
`b = chr1 [0,10)` (`0 < 5` and `10 > 5`), yet the computed overlap length is
`min(5,10) - max(5,0) = 0`, not `> 0` — and the scan's `overlap_length > 0`
guard therefore emits no row for this pair, so the claim fails as stated. -/
theorem overlap_zero_length_counterexample :
    (⟨"chr1", 5, 5⟩ : IRec).start ≤ (⟨"chr1", 5, 5⟩ : IRec).stop
    ∧ (⟨"chr1", 0, 10⟩ : IRec).start ≤ (⟨"chr1", 0, 10⟩ : IRec).stop
    ∧ overlapTest ⟨"chr1", 5, 5⟩ ⟨"chr1", 0, 10⟩ = true
    ∧ ¬ (0 < overlapLen ⟨"chr1", 5, 5⟩ ⟨"chr1", 0, 10⟩)
    ∧ intersect_bedtools_advanced [mkRow3 "chr1" 5 5] [mkRow3 "chr1" 0 10] {} = [] := by
  refine ⟨by decide, by decide, by decide, by decide, by decide⟩

/-- Claim C6, amended: for records of POSITIVE length (`start < end`, rather
than merely `start ≤ end`) that pass the overlap test, the computed overlap
length is strictly positive, and the scan's emission condition coincides with
the overlap test — every such overlapping pair produces a result row. -/
theorem overlap_length_positive (a b : IRec) (ha : a.start < a.stop) (hb : b.start < b.stop) :
    (overlapTest a b = true → 0 < overlapLen a b) ∧ emitB a b = overlapTest a b :=
  ⟨overlapLen_pos ha hb, emitB_eq_overlapTest ha hb⟩

/-- Claim C6, witness: the amended theorem applied to the concrete
positive-length pair `chr1 [10,20)` and `chr1 [19,25)`. -/
theorem overlap_length_positive_witness :
    (overlapTest ⟨"chr1", 10, 20⟩ ⟨"chr1", 19, 25⟩ = true →
      0 < overlapLen ⟨"chr1", 10, 20⟩ ⟨"chr1", 19, 25⟩)
    ∧ emitB ⟨"chr1", 10, 20⟩ ⟨"chr1", 19, 25⟩ =
        overlapTest ⟨"chr1", 10, 20⟩ ⟨"chr1", 19, 25⟩ :=
  overlap_length_positive ⟨"chr1", 10, 20⟩ ⟨"chr1", 19, 25⟩ (by decide) (by decide)

/-- Claim C7: sort orders the table by the lexicographic
`(chrom, start, end)` key (chromosomes lexical, coordinates numeric), returns
a permutation of the input, and is stable — the rows carrying any fixed key
appear in the output exactly as they appeared in the input. -/
theorem sort_bed_correct :
    (∀ df : List BedRow, List.Sorted sle (sort_bed df))
    ∧ (∀ df : List BedRow, (sort_bed df).Perm df)
    ∧ ∀ (df : List BedRow) (k : String × Option Int × Option Int),
        (sort_bed df).filter (fun r => decide ((r.chrom, r.start, r.stop) = k))
          = df.filter (fun r => decide ((r.chrom, r.start, r.stop) = k)) :=
  ⟨fun df => List.sorted_insertionSort sle df,
   fun df => List.perm_insertionSort sle df,
   sort_bed_stable⟩

/-- Claim C8: `merge_bed_files` mutates the caller's table — the in-place
coercion assignments and `df.dropna(inplace=True)` of src/mergeBed.py lines
13-15 remove every row holding a NaN cell from the caller's frame, so after
merging a table whose single row has a non-numeric `start` the caller's table
is empty, not its original content (the claim, and the commented-out
`df[cols].copy()` of line 9, say it should be unchanged). -/
theorem merge_mutates_caller :
    merge_caller_view [⟨"chr1", none, some 10, []⟩] = []
    ∧ merge_caller_view [⟨"chr1", none, some 10, []⟩] ≠ [⟨"chr1", none, some 10, []⟩] :=
  ⟨by decide, by decide⟩

/-- Claim C9, counterexample: a raw row of 13 tab-separated cells makes the
loader FAIL (`None`) instead of succeeding with the surplus column dropped:
`df.columns = bed_cols[:13]` assigns 12 names to 13 columns, raising the
length-mismatch `ValueError` the `except` turns into `None`. -/
theorem load_bed_surplus_counterexample :
    load_bed [List.replicate 13 "x"] = none ∧ (List.replicate 13 "x").length = 13 :=
  ⟨by decide, by decide⟩

/-- Claim C9, amended: raw input with more than 12 columns makes the loader
fail (it returns no table); whenever the loader does return a table, its
column labels are the canonical schema's prefix for the input's column count,
which never exceeds 12. -/
theorem load_bed_surplus_amended (rows : List (List String)) :
    (12 < (rows.headD []).length → load_bed rows = none)
    ∧ ∀ cols tbl, load_bed rows = some (cols, tbl) →
        cols = bedCols.take (rows.headD []).length ∧ cols.length ≤ 12 := by
  constructor
  · intro h
    simp only [load_bed]
    split_ifs with h1 h2 h3 h4 <;> try rfl
    exfalso
    rw [bedCols_length] at h2
    omega
  · intro cols tbl h
    simp only [load_bed] at h
    split_ifs at h with h1 h2 h3 h4
    · simp only [Option.some.injEq, Prod.mk.injEq] at h
      refine ⟨h.1.symm, ?_⟩
      rw [← h.1]
      rw [List.length_take, bedCols_length]
      omega

/-- Claim C9, witness: the amended theorem applied at two concrete inputs —
a 13-column row fails to load, and a successful 4-column load is labeled with
the schema prefix `chrom start end name` of length at most 12. -/
theorem load_bed_surplus_amended_witness :
    load_bed [List.replicate 13 "x"] = none
    ∧ (["chrom", "start", "end", "name"] : List String).length ≤ 12 :=
  ⟨(load_bed_surplus_amended [List.replicate 13 "x"]).1 (by decide),
   ((load_bed_surplus_amended [["chr1", "1", "2", "nm"]]).2
      ["chrom", "start", "end", "name"]
      [[Cell.str "chr1", Cell.int 1, Cell.int 2, Cell.str "nm"]] (by decide)).2⟩

/-- Claim C10: the quality scan of the table with chromosome names
`chr1`, `chrUn_gl000220`, `chr2_random` (valid coordinates) reports one
unplaced (`chrUn`) record, one random-contig record, zero in every other
category and a total of 2; and the categories are non-exclusive — a single
record named `chrUn_1_random` is counted in both the `chrUn` and the `random`
categories at once. -/
theorem quality_scan_example :
    detect_bed_problems
        [⟨"chr1", some 0, some 10, []⟩, ⟨"chrUn_gl000220", some 0, some 10, []⟩,
         ⟨"chr2_random", some 0, some 10, []⟩]
      = ⟨1, 1, 0, 0, 0, 0, 2⟩
    ∧ detect_bed_problems [⟨"chrUn_1_random", some 0, some 10, []⟩]
      = ⟨1, 1, 0, 0, 0, 0, 2⟩ :=
  ⟨by decide, by decide⟩
